import Mathlib

/-
  Verification development for the TropicTrek chat frontend.

  The definitions below are a shallow embedding of the TypeScript sources:
  - src/frontend1/src/lib/types.ts          (Message record)
  - src/unnamed/part_006                    (chatAPI: ChatRequest / ChatResponse)
  - src/frontend1/src/App.tsx               (root controller: handleSendMessage)
  - src/unnamed/part_003                    (UserInput: handleInputChange / handleKeyPress / handleSend)
  - src/frontend1/src/components/PdfPreviewModal.tsx (modal state machine)
  - src/frontend1/src/components/MessageBubble.tsx   (render pipeline)
-/

namespace TropiTrek

/- ===== Data model (types.ts / api.ts) ===== -/

inductive Sender where
  | user
  | ai
deriving DecidableEq

/-- Embedding of the `Message` interface of src/frontend1/src/lib/types.ts.
Optional fields become `Option`; `timestamp : Date` is modelled as a `Nat` clock value. -/
structure Message where
  id : String
  content : String
  sender : Sender
  timestamp : Nat
  pdfId : Option String := none
  pdfGenerated : Option Bool := none
deriving DecidableEq

/-- Embedding of `ChatResponse` of src/unnamed/part_006 (lib/api.ts). -/
structure ChatResponse where
  response : String
  session_id : String
  pdf_generated : Bool
  pdf_id : Option String := none
deriving DecidableEq

/-- Embedding of `ChatRequest` of src/unnamed/part_006 (lib/api.ts).
`session_id?: string` becomes an `Option String`; `none` models the field being omitted. -/
structure ChatRequest where
  message : String
  session_id : Option String
deriving DecidableEq

/-- JavaScript truthiness of an optional string value: `undefined` and `""` are falsy. -/
def optTruthy : Option String → Bool
  | none => false
  | some s => s != ""

/-- Characters matched by the JavaScript regex class `\s` (the forms relevant to
chat text). -/
def jsWhitespace (c : Char) : Bool :=
  c == ' ' || c == '\t' || c == '\n' || c == '\r' || c == '\x0b' || c == '\x0c'

/-- JavaScript `trim()`: drop leading and trailing whitespace. -/
def jsTrim (s : String) : String :=
  String.mk (((s.toList.dropWhile jsWhitespace).reverse.dropWhile jsWhitespace).reverse)

/- ===== Root controller (App.tsx) ===== -/

/-- The React state of the `ChatInterface` component in App.tsx:
`messages`, `isLoading`, `inputValue`, `sessionId`, `availablePdfs`. -/
structure AppState where
  messages : List Message
  isLoading : Bool
  inputValue : String
  sessionId : String
  availablePdfs : List (String × String)
deriving DecidableEq

/-- Initial component state: `useState([])`, `useState(false)`, `useState("")`,
`useState("")`, `useState({})`. -/
def initialState : AppState :=
  { messages := [], isLoading := false, inputValue := "", sessionId := "", availablePdfs := [] }

/-- The outcome of `chatAPI.sendMessage`: a parsed `ChatResponse`, or a thrown
error (non-success HTTP status or transport failure). -/
inductive SendResult where
  | ok (r : ChatResponse)
  | err
deriving DecidableEq

/-- The request built in App.tsx lines 63-66:
`{ message: content, session_id: sessionId || undefined }`.
An empty string is falsy in JavaScript, so it turns into an omitted field. -/
def buildChatRequest (content : String) (st : AppState) : ChatRequest :=
  { message := content
    session_id := if st.sessionId == "" then none else some st.sessionId }

/-- The fixed fallback apology text of App.tsx line 99. -/
def fallbackApology : String :=
  "🌴 Sorry, I\x27m having trouble connecting right now. Please make sure the TropicTrek backend is running and try again. I\x27m here to help you plan your perfect Caribbean adventure!"

/-- The user turn appended at App.tsx lines 51-56 (`id: Date.now().toString()`). -/
def mkUserMessage (now : Nat) (content : String) : Message :=
  { id := toString now, content := content, sender := Sender.user, timestamp := now }

/-- The assistant turn appended on success, App.tsx lines 73-80. -/
def mkAiMessage (now : Nat) (r : ChatResponse) : Message :=
  { id := toString (now + 1), content := r.response, sender := Sender.ai, timestamp := now
    pdfId := r.pdf_id, pdfGenerated := some r.pdf_generated }

/-- The synthetic assistant turn appended on failure, App.tsx lines 97-102. -/
def mkErrorMessage (now : Nat) : Message :=
  { id := toString (now + 1), content := fallbackApology, sender := Sender.ai, timestamp := now }

/-- Object-spread update `{...prev, [pdf_id]: label}` on the `availablePdfs` map,
modelled on an association list. -/
def upsertPdf (m : List (String × String)) (k v : String) : List (String × String) :=
  if m.any (fun p => p.1 == k) then m.map (fun p => if p.1 == k then (k, v) else p)
  else m ++ [(k, v)]

/-- Embedding of `handleSendMessage` (App.tsx lines 50-109) as a state transition.
The backend interaction is summarised by the `result` argument; `now` stands for
`Date.now()`. On success the session id is captured when none was stored, the
assistant turn is appended, and the PDF cache is updated when
`response.pdf_generated && response.pdf_id` is truthy; on failure the fixed
fallback turn is appended. `isLoading` is reset in the `finally` block. -/
def handleSendMessage (now : Nat) (content : String) (st : AppState)
    (result : SendResult) : AppState :=
  let st1 : AppState :=
    { st with messages := st.messages ++ [mkUserMessage now content]
              inputValue := ""
              isLoading := true }
  match result with
  | SendResult.ok r =>
      let st2 := if st1.sessionId == "" then { st1 with sessionId := r.session_id } else st1
      let st3 := { st2 with messages := st2.messages ++ [mkAiMessage now r] }
      let st4 :=
        if r.pdf_generated && optTruthy r.pdf_id then
          { st3 with availablePdfs := upsertPdf st3.availablePdfs (r.pdf_id.getD "") "TropicTrek Itinerary PDF" }
        else st3
      { st4 with isLoading := false }
  | SendResult.err =>
      { st1 with messages := st1.messages ++ [mkErrorMessage now], isLoading := false }

/-- One send interaction: the clock value, the submitted content and the backend outcome. -/
structure SendEvent where
  now : Nat
  content : String
  result : SendResult
deriving DecidableEq

/-- Run one send interaction. -/
def stepSend (st : AppState) (e : SendEvent) : AppState :=
  handleSendMessage e.now e.content st e.result

/-- Run a sequence of send interactions. -/
def runSends (st : AppState) (es : List SendEvent) : AppState :=
  es.foldl stepSend st

/-- The sequence of outgoing requests issued along a sequence of send interactions:
exactly one request per send, built from the state current when the send starts. -/
def requestsAlong : AppState → List SendEvent → List ChatRequest
  | _, [] => []
  | st, e :: es => buildChatRequest e.content st :: requestsAlong (stepSend st e) es

/-- All requests of a list carry the given session id. -/
def allRequestsCarry (sid : String) (reqs : List ChatRequest) : Bool :=
  reqs.all fun req => req.session_id == some sid

/- ===== PDF affordance rendering (MessageBubble.tsx lines 258-313) ===== -/

/-- The render guard of the download/preview section, MessageBubble.tsx line 259:
`!isUser && message.pdfGenerated && message.pdfId && onPdfDownload`.
`onPdfDownloadWired` records whether the optional `onPdfDownload` prop was passed. -/
def showPdfActions (m : Message) (onPdfDownloadWired : Bool) : Bool :=
  !(m.sender == Sender.user) && m.pdfGenerated.getD false && optTruthy m.pdfId
    && onPdfDownloadWired

/-- A backend reply respecting the spec invariant: whenever `pdf_generated` is
reported, a non-empty `pdf_id` accompanies it. -/
def goodResponse (r : ChatResponse) : Bool :=
  !r.pdf_generated || optTruthy r.pdf_id

/-- A send interaction whose successful reply (if any) is a `goodResponse`. -/
def goodEvent : SendEvent → Bool
  | ⟨_, _, SendResult.ok r⟩ => goodResponse r
  | ⟨_, _, SendResult.err⟩ => true

/-- All interactions of a list are good. -/
def goodEvents (es : List SendEvent) : Bool :=
  es.all goodEvent

/-- A turn with `pdfGenerated` truthy carries a truthy (non-empty) `pdfId`. -/
def msgPdfCoherent (m : Message) : Bool :=
  !(m.pdfGenerated.getD false) || optTruthy m.pdfId

/-- The download/preview affordances of a turn are rendered (with the download
callback wired, as App.tsx wires it) exactly when both `pdfGenerated` and a
non-empty `pdfId` are present. -/
def msgAffordanceIffOk (m : Message) : Bool :=
  showPdfActions m true == (m.pdfGenerated.getD false && optTruthy m.pdfId)

/-- Every stored turn is PDF-coherent and renders its affordances correctly. -/
def statePdfUiOk (st : AppState) : Bool :=
  st.messages.all fun m => msgPdfCoherent m && msgAffordanceIffOk m

/-- Every stored turn renders its affordances correctly (no coherence requirement). -/
def stateAffordanceIffOk (st : AppState) : Bool :=
  st.messages.all msgAffordanceIffOk

/- ===== Input box (src/unnamed/part_003, UserInput) ===== -/

/-- The input-relevant state: the controlled `value` (held by the parent via
`onChange`) and the component-local `charCount`. -/
structure InputState where
  value : String
  charCount : Nat
deriving DecidableEq

/-- `const maxChars = 1000`. -/
def maxChars : Nat := 1000

/-- Embedding of `handleInputChange`: the new value is accepted (propagated via
`onChange`, and `charCount` updated) only when its length is at most `maxChars`;
otherwise nothing happens. -/
def handleInputChange (st : InputState) (newValue : String) : InputState :=
  if newValue.length ≤ maxChars then { value := newValue, charCount := newValue.length }
  else st

/-- Embedding of `handleKeyPress`: on Enter without Shift, dispatch the trimmed
value when it is non-empty and the component is not disabled. The returned list
holds the messages passed to `onSendMessage`. -/
def handleKeyPress (disabled : Bool) (st : InputState) (key : String) (shift : Bool) :
    List String :=
  if key == "Enter" && !shift then
    if jsTrim st.value != "" && !disabled then [jsTrim st.value] else []
  else []

/-- Embedding of `handleSend` (the Send button click handler). -/
def handleSend (disabled : Bool) (st : InputState) : List String :=
  if jsTrim st.value != "" && !disabled then [jsTrim st.value] else []

/-- The `disabled` attribute of the Send button: `!value.trim() || disabled`. -/
def sendButtonDisabled (disabled : Bool) (st : InputState) : Bool :=
  jsTrim st.value == "" || disabled

/-- An interaction with the input box. -/
inductive InputEvent where
  | change (newValue : String)
  | keyPress (key : String) (shift : Bool)
  | clickSend
deriving DecidableEq

/-- One input-box interaction: the resulting state and the dispatched messages. -/
def inputStep (disabled : Bool) (st : InputState) : InputEvent → InputState × List String
  | InputEvent.change v => (handleInputChange st v, [])
  | InputEvent.keyPress key shift => (st, handleKeyPress disabled st key shift)
  | InputEvent.clickSend => (st, handleSend disabled st)

/- ===== PDF preview modal (PdfPreviewModal.tsx) ===== -/

/-- The modal component state: `isEditing`, `editedContent`, `hasChanges`. -/
structure ModalState where
  isEditing : Bool
  editedContent : String
  hasChanges : Bool
deriving DecidableEq

/-- Initial modal state: `useState(false)`, `useState(pdfContent)`, `useState(false)`. -/
def initModal (pdfContent : String) : ModalState :=
  { isEditing := false, editedContent := pdfContent, hasChanges := false }

/-- An interaction with the modal. -/
inductive ModalEvent where
  | startEdit
  | contentChange (text : String)
  | saveEdits
  | cancelEdit
deriving DecidableEq

/-- An invocation of the `onSaveEdits` owner callback with its two arguments. -/
structure SaveCallback where
  pdfId : String
  editedContent : String
deriving DecidableEq

/-- Embedding of the modal handlers (PdfPreviewModal.tsx lines 31-46 and the
Edit button): the new state plus the list of owner-callback invocations.
`handleContentChange` compares the new text against the `pdfContent` prop;
`handleSaveEdits` fires `onSaveEdits(pdfId, editedContent)` once;
`handleCancelEdit` restores `editedContent` to `pdfContent` and fires nothing. -/
def modalStep (pdfContent pdfId : String) (st : ModalState) :
    ModalEvent → ModalState × List SaveCallback
  | ModalEvent.startEdit => ({ st with isEditing := true }, [])
  | ModalEvent.contentChange t =>
      ({ st with editedContent := t, hasChanges := t != pdfContent }, [])
  | ModalEvent.saveEdits =>
      ({ st with hasChanges := false, isEditing := false },
       [{ pdfId := pdfId, editedContent := st.editedContent }])
  | ModalEvent.cancelEdit =>
      ({ st with editedContent := pdfContent, hasChanges := false, isEditing := false }, [])

/-- Run a sequence of modal interactions, keeping only the state. -/
def runModal (pdfContent pdfId : String) : ModalState → List ModalEvent → ModalState
  | st, [] => st
  | st, e :: es => runModal pdfContent pdfId (modalStep pdfContent pdfId st e).1 es

/-- Run a sequence of modal interactions, collecting the callback invocations. -/
def runModalTrace (pdfContent pdfId : String) :
    ModalState → List ModalEvent → ModalState × List SaveCallback
  | st, [] => (st, [])
  | st, e :: es =>
      let p := modalStep pdfContent pdfId st e
      let q := runModalTrace pdfContent pdfId p.1 es
      (q.1, p.2 ++ q.2)

/- ===== Message renderer (MessageBubble.tsx, assistant branch) ===== -/

/-- Split a character list at every occurrence of the separator, keeping empty
segments, as JavaScript `split` does. -/
def splitOnChar (sep : Char) : List Char → List (List Char)
  | [] => [[]]
  | c :: cs =>
      match splitOnChar sep cs with
      | [] => [[]]
      | h :: t => if c == sep then [] :: h :: t else (c :: h) :: t

/-- Match a literal character sequence at the head of the input, returning the
remainder on success. -/
def dropLit : List Char → List Char → Option (List Char)
  | [], cs => some cs
  | _ :: _, [] => none
  | p :: ps, c :: cs => if p == c then dropLit ps cs else none

/-- The literal part of `/https:\/\/images\.unsplash\.com\/[^\s)]+/g`. -/
def imageHostLit : List Char := "https://images.unsplash.com/".toList

/-- The literal part of `/http:\/\/localhost:8000\/download-pdf\/[^\s]+\.pdf/g`. -/
def pdfDownloadLit : List Char := "http://localhost:8000/download-pdf/".toList

/-- The literal part of `/https:\/\/www\.youtube\.com\/embed\/[^\s]+/g`. -/
def videoEmbedLit : List Char := "https://www.youtube.com/embed/".toList

/-- Try to match, at the current position, a literal followed by a greedy
non-empty run of characters satisfying `keep` (the shape of the image and video
regexes). Returns the matched characters and the remainder. -/
def matchUrlAt (lit : List Char) (keep : Char → Bool) (cs : List Char) :
    Option (List Char × List Char) :=
  match dropLit lit cs with
  | none => none
  | some rest =>
      let run := rest.takeWhile keep
      if run.isEmpty then none
      else some (lit ++ run, rest.dropWhile keep)

/-- Does the list have length at least five and end with `.pdf`? This is the
success condition of `[^\s]+\.pdf` on a candidate consumed segment. -/
def endsWithPdf (l : List Char) : Bool :=
  decide (5 ≤ l.length) && (l.drop (l.length - 4) == ".pdf".toList)

/-- The greedy-with-backtracking semantics of `[^\s]+\.pdf`: within the maximal
non-whitespace run, the longest leading segment of length at least five that
ends with `.pdf`. -/
def bestCut (run : List Char) : Option Nat :=
  (List.range (run.length + 1)).reverse.find? fun k => endsWithPdf (run.take k)

/-- Try to match the PDF download regex at the current position. -/
def matchPdfAt (cs : List Char) : Option (List Char × List Char) :=
  match dropLit pdfDownloadLit cs with
  | none => none
  | some rest =>
      let run := rest.takeWhile fun c => !jsWhitespace c
      match bestCut run with
      | none => none
      | some k => some (pdfDownloadLit ++ run.take k, rest.drop k)

/-- The `while ((m = regex.exec(content)) !== null)` loop: find the leftmost
match at or after the current position, record it, continue after its end.
Every successful step consumes at least the non-empty literal, and a failed
position is abandoned by advancing one character, so a fuel equal to the input
length suffices and the fuel never runs out. -/
def scanLoop (step : List Char → Option (List Char × List Char)) :
    Nat → List Char → List String
  | 0, _ => []
  | _ + 1, [] => []
  | fuel + 1, c :: cs =>
      match step (c :: cs) with
      | some (m, r) => String.mk m :: scanLoop step fuel r
      | none => scanLoop step fuel cs

/-- Run a regex scan loop over a string. -/
def scanAll (step : List Char → Option (List Char × List Char)) (s : String) :
    List String :=
  scanLoop step s.toList.length s.toList

/-- MessageBubble.tsx lines 59-65: all image-hosting URL matches, in source order. -/
def extractImageUrls (content : String) : List String :=
  scanAll (matchUrlAt imageHostLit fun c => !jsWhitespace c && c != ')') content

/-- MessageBubble.tsx lines 67-73: all PDF download URL matches, in source order. -/
def extractPdfUrls (content : String) : List String :=
  scanAll matchPdfAt content

/-- MessageBubble.tsx lines 75-81: all video embed URL matches, in source order. -/
def extractVideoEmbedUrls (content : String) : List String :=
  scanAll (matchUrlAt videoEmbedLit fun c => !jsWhitespace c) content

/-- `pdfUrl.split('/').pop() || 'itinerary.pdf'` (MessageBubble.tsx line 143). -/
def pdfFilename (url : String) : String :=
  match ((splitOnChar '/' url.toList).map String.mk).getLast? with
  | some s => if s == "" then "itinerary.pdf" else s
  | none => "itinerary.pdf"

/-- `line.includes(sub)` on character lists. -/
def listContainsSub (sub : List Char) : List Char → Bool
  | [] => sub == []
  | c :: cs => (dropLit sub (c :: cs)).isSome || listContainsSub sub cs

/-- `line.includes(sub)`. -/
def containsSub (s sub : String) : Bool :=
  listContainsSub sub.toList s.toList

/-- Match of `/!\[([^\]]*)\]\(([^)]+)\)/` at the current position: `![`, a run of
non-`]` characters, `](`, a non-empty run of non-`)` characters, `)`. -/
def mdImageAt : List Char → Bool
  | '!' :: '[' :: rest =>
      match rest.dropWhile (fun c => c != ']') with
      | ']' :: '(' :: rest2 =>
          let url := rest2.takeWhile fun c => c != ')'
          match rest2.dropWhile (fun c => c != ')') with
          | ')' :: _ => !url.isEmpty
          | _ => false
      | _ => false
  | _ => false

/-- `line.match(/!\[([^\]]*)\]\(([^)]+)\)/)` is non-null: the pattern matches at
some position. -/
def hasMdImage : List Char → Bool
  | [] => false
  | c :: cs => mdImageAt (c :: cs) || hasMdImage cs

/-- Match of `/\*\*\d+\.\s*[^*]+\*\*/` at the current position: `**`, a
non-empty digit run, `.`, a non-empty run of non-`*` characters (`\s*[^*]+`
collapses to this), `**`. -/
def mdBoldHeadingAt : List Char → Bool
  | '*' :: '*' :: rest =>
      let ds := rest.takeWhile Char.isDigit
      if ds.isEmpty then false
      else
        match rest.dropWhile Char.isDigit with
        | '.' :: rest2 =>
            let body := rest2.takeWhile fun c => c != '*'
            if body.isEmpty then false
            else
              match rest2.dropWhile (fun c => c != '*') with
              | '*' :: '*' :: _ => true
              | _ => false
        | _ => false
  | _ => false

/-- `line.match(/\*\*\d+\.\s*[^*]+\*\*/)` is non-null. -/
def hasMdBoldHeading : List Char → Bool
  | [] => false
  | c :: cs => mdBoldHeadingAt (c :: cs) || hasMdBoldHeading cs

/-- `line.trim().startsWith('**') && line.includes('**')`. -/
def trimStartsBold (line : String) : Bool :=
  (dropLit "**".toList (jsTrim line).toList).isSome && containsSub line "**"

/-- The skip condition of the text phase (MessageBubble.tsx lines 206-218), in
source order of the disjuncts. -/
def shouldSkipLine (line : String) : Bool :=
  containsSub line "https://images.unsplash.com/" ||
  containsSub line "http://localhost:8000/download-pdf/" ||
  containsSub line "https://www.youtube.com/watch" ||
  containsSub line "https://www.youtube.com/embed" ||
  containsSub line "https://i.ytimg.com/" ||
  hasMdImage line.toList ||
  hasMdBoldHeading line.toList ||
  containsSub line "Channel:" ||
  containsSub line "Description:" ||
  containsSub line "Watch:" ||
  containsSub line "Embed:" ||
  containsSub line "Thumbnail:" ||
  trimStartsBold line

/-- JavaScript `\w`: ASCII letters, digits and underscore. -/
def isWordChar (c : Char) : Bool :=
  c.isAlpha || c.isDigit || c == '_'

/-- JavaScript `\b`: the two sides differ in word-ness (out of range counts as
non-word). -/
def isBoundary (a b : Option Char) : Bool :=
  (a.map isWordChar).getD false != (b.map isWordChar).getD false

/-- Match a word pattern (case-insensitive, `.` matching any character, as a
regex built from the raw word) against the head of the input, returning the
remainder. Each pattern character consumes exactly one input character. -/
def patMatches : List Char → List Char → Option (List Char)
  | [], cs => some cs
  | _ :: _, [] => none
  | p :: ps, c :: cs =>
      if p == '.' || p.toLower == c.toLower then patMatches ps cs else none

/-- The opening tag inserted around an emphasized word. -/
def spanOpen : List Char :=
  "<span class=\"text-blue-600 font-medium\">".toList

/-- The closing tag inserted around an emphasized word. -/
def spanClose : List Char :=
  "</span>".toList

/-- One pass of `processedText.replace(new RegExp('\\b' + word + '\\b', 'gi'), span)`:
scan left to right tracking the previous original character for the left
boundary; on a boundary-delimited match, emit the span around the canonical
word and continue after the match; otherwise advance one character. Fuel equal
to the input length suffices (every step consumes at least one character). -/
def replaceLoop (w : List Char) : Nat → Option Char → List Char → List Char
  | 0, _, cs => cs
  | _ + 1, _, [] => []
  | fuel + 1, prev, c :: cs =>
      match patMatches w (c :: cs) with
      | some rest =>
          let consumed := (c :: cs).take w.length
          if isBoundary prev (some c) && isBoundary consumed.getLast? rest.head? then
            spanOpen ++ w ++ spanClose ++ replaceLoop w fuel consumed.getLast? rest
          else c :: replaceLoop w fuel (some c) cs
      | none => c :: replaceLoop w fuel (some c) cs

/-- The fixed emphasis list of MessageBubble.tsx lines 225-230. -/
def emphasizedWords : List String :=
  ["Dominica", "Grenada", "St. Lucia", "St. Kitts", "Nevis", "Antigua", "Barbuda",
   "St. Vincent", "Grenadines", "Anguilla", "Caribbean", "ECCU",
   "Adventure Seeker", "Cultural Explorer", "Relaxation", "budget", "moderate", "luxury",
   "itinerary", "PDF", "weather", "festival", "beach", "waterfall", "rainforest"]

/-- Embedding of `processLine` (MessageBubble.tsx lines 223-239): successive
whole-word case-insensitive replacement of each emphasized word by its span. -/
def processLine (text : String) : String :=
  emphasizedWords.foldl
    (fun acc w => String.mk (replaceLoop w.toList acc.toList.length none acc.toList))
    text

/-- The HTML written for one rendered text line: the empty line renders as the
non-breaking space u00A0, any other line as its processed form. -/
def renderTextLine (line : String) : String :=
  if line == "" then "\u00A0" else processLine line

/-- `message.content.split('\n')`. -/
def splitLines (s : String) : List String :=
  (splitOnChar '\n' s.toList).map String.mk

/-- One display block emitted by the assistant-message renderer. -/
inductive Block where
  | image (url : String)
  | pdfCard (url : String) (filename : String)
  | video (url : String)
  | textLine (html : String)
deriving DecidableEq

/-- The fixed rank of a block kind in the emitted order. -/
def blockRank : Block → Nat
  | Block.image _ => 0
  | Block.pdfCard _ _ => 1
  | Block.video _ => 2
  | Block.textLine _ => 3

/-- The assistant-message render pipeline (MessageBubble.tsx lines 59-253):
the image entries, then the PDF action cards, then the video embeds, then the
surviving text lines, each group in extraction order. -/
def renderBlocks (content : String) : List Block :=
  (extractImageUrls content).map Block.image ++
  (extractPdfUrls content).map (fun u => Block.pdfCard u (pdfFilename u)) ++
  (extractVideoEmbedUrls content).map Block.video ++
  ((splitLines content).filter (fun l => !shouldSkipLine l)).map
    (fun l => Block.textLine (renderTextLine l))

/-- The image entries of a block list, in order. -/
def imageUrlsOfBlocks (bs : List Block) : List String :=
  bs.filterMap fun b =>
    match b with
    | Block.image u => some u
    | _ => none

/-- The text lines of a block list, in order. -/
def textLinesOfBlocks (bs : List Block) : List String :=
  bs.filterMap fun b =>
    match b with
    | Block.textLine s => some s
    | _ => none

/-- Claim C6's own omission condition, formalised from its words: the line is
itself one of the already-extracted URL forms (an image, PDF-download, or video
URL extracted from the content), or matches a markdown image shape, or matches a
bold-heading shape. -/
def lineIsClaimSkippable (content line : String) : Bool :=
  (extractImageUrls content).contains line ||
  (extractPdfUrls content).contains line ||
  (extractVideoEmbedUrls content).contains line ||
  hasMdImage line.toList ||
  hasMdBoldHeading line.toList ||
  trimStartsBold line

/- ===== Helper lemmas ===== -/

/-- The messages after one send: the user turn, then the assistant turn (the
reply on success, the fallback on failure). -/
theorem handleSendMessage_messages (now : Nat) (content : String) (st : AppState)
    (res : SendResult) :
    (handleSendMessage now content st res).messages
      = st.messages ++ [mkUserMessage now content] ++
        [match res with
         | SendResult.ok r => mkAiMessage now r
         | SendResult.err => mkErrorMessage now] := by
  cases res <;> simp only [handleSendMessage] <;> split <;> (try split) <;> simp

/-- A send step never clears a non-empty stored session id. -/
theorem stepSend_sessionId_stable (st : AppState) (e : SendEvent)
    (h : st.sessionId ≠ "") : (stepSend st e).sessionId = st.sessionId := by
  obtain ⟨now, content, res⟩ := e
  cases res with
  | ok r =>
      simp only [stepSend, handleSendMessage]
      have hc : (st.sessionId == "") = false := by simp [h]
      split <;> simp_all
  | err => rfl

/-- With a non-empty stored session id, every outgoing request carries it and it
survives any further sequence of sends. -/
theorem requests_carry_session (s : String) (hs : s ≠ "") :
    ∀ (es : List SendEvent) (st : AppState), st.sessionId = s →
      allRequestsCarry s (requestsAlong st es) = true ∧ (runSends st es).sessionId = s := by
  intro es
  induction es with
  | nil => intro st h; exact ⟨rfl, h⟩
  | cons e t ih =>
      intro st h
      have hstable : (stepSend st e).sessionId = s := by
        rw [stepSend_sessionId_stable st e (h ▸ hs)]; exact h
      have hrest := ih (stepSend st e) hstable
      constructor
      · simp only [requestsAlong, allRequestsCarry, List.all_cons, Bool.and_eq_true]
        refine ⟨?_, hrest.1⟩
        simp [buildChatRequest, h, hs]
      · simpa [runSends] using hrest.2

/-- A good reply makes the appended assistant turn PDF-coherent with correctly
rendered affordances. -/
theorem msgOk_mkAiMessage (now : Nat) (r : ChatResponse) (hr : goodResponse r = true) :
    (msgPdfCoherent (mkAiMessage now r) && msgAffordanceIffOk (mkAiMessage now r)) = true := by
  simp only [goodResponse] at hr
  simp only [msgPdfCoherent, msgAffordanceIffOk, mkAiMessage, showPdfActions]
  cases hg : r.pdf_generated <;> cases ho : optTruthy r.pdf_id <;> simp_all

/-- The appended assistant turn always renders its affordances correctly. -/
theorem msgAffordance_mkAiMessage (now : Nat) (r : ChatResponse) :
    msgAffordanceIffOk (mkAiMessage now r) = true := by
  simp only [msgAffordanceIffOk, mkAiMessage, showPdfActions]
  cases hg : r.pdf_generated <;> cases ho : optTruthy r.pdf_id <;> simp_all

/-- The user turn is PDF-coherent. -/
theorem msgCoherent_mkUserMessage (now : Nat) (content : String) :
    msgPdfCoherent (mkUserMessage now content) = true := rfl

/-- The user turn renders no affordances, matching its absent PDF fields. -/
theorem msgAffordance_mkUserMessage (now : Nat) (content : String) :
    msgAffordanceIffOk (mkUserMessage now content) = true := rfl

/-- The fallback turn is PDF-coherent. -/
theorem msgCoherent_mkErrorMessage (now : Nat) :
    msgPdfCoherent (mkErrorMessage now) = true := rfl

/-- The fallback turn renders no affordances, matching its absent PDF fields. -/
theorem msgAffordance_mkErrorMessage (now : Nat) :
    msgAffordanceIffOk (mkErrorMessage now) = true := rfl

/-- A good reply makes the appended assistant turn PDF-coherent. -/
theorem msgCoherent_mkAiMessage (now : Nat) (r : ChatResponse)
    (hr : goodResponse r = true) :
    msgPdfCoherent (mkAiMessage now r) = true := by
  simpa [msgPdfCoherent, mkAiMessage, goodResponse] using hr

/-- One good send step preserves the PDF-UI invariant. -/
theorem statePdfUiOk_step (st : AppState) (e : SendEvent)
    (hst : statePdfUiOk st = true) (he : goodEvent e = true) :
    statePdfUiOk (stepSend st e) = true := by
  obtain ⟨now, content, res⟩ := e
  have hst2 : (st.messages.all fun m => msgPdfCoherent m && msgAffordanceIffOk m) = true := hst
  cases res with
  | ok r =>
      have hr : goodResponse r = true := he
      simp [statePdfUiOk, stepSend, handleSendMessage_messages, List.all_append, hst2,
        msgCoherent_mkUserMessage, msgAffordance_mkUserMessage,
        msgCoherent_mkAiMessage now r hr, msgAffordance_mkAiMessage]
  | err =>
      simp [statePdfUiOk, stepSend, handleSendMessage_messages, List.all_append, hst2,
        msgCoherent_mkUserMessage, msgAffordance_mkUserMessage,
        msgCoherent_mkErrorMessage, msgAffordance_mkErrorMessage]

/-- One send step (good or not) preserves the affordance-rendering invariant. -/
theorem stateAffordanceIffOk_step (st : AppState) (e : SendEvent)
    (hst : stateAffordanceIffOk st = true) :
    stateAffordanceIffOk (stepSend st e) = true := by
  obtain ⟨now, content, res⟩ := e
  have hst2 : st.messages.all msgAffordanceIffOk = true := hst
  cases res with
  | ok r =>
      simp [stateAffordanceIffOk, stepSend, handleSendMessage_messages, List.all_append, hst2,
        msgAffordance_mkUserMessage, msgAffordance_mkAiMessage]
  | err =>
      simp [stateAffordanceIffOk, stepSend, handleSendMessage_messages, List.all_append, hst2,
        msgAffordance_mkUserMessage, msgAffordance_mkErrorMessage]

/-- Running good sends preserves the PDF-UI invariant. -/
theorem statePdfUiOk_run (es : List SendEvent) :
    ∀ st : AppState, statePdfUiOk st = true → goodEvents es = true →
      statePdfUiOk (runSends st es) = true := by
  induction es with
  | nil => intro st h _; exact h
  | cons e t ih =>
      intro st h hg
      simp only [goodEvents, List.all_cons, Bool.and_eq_true] at hg
      simpa [runSends] using ih (stepSend st e) (statePdfUiOk_step st e h hg.1)
        (by simp [goodEvents, hg.2])

/-- Running any sends preserves the affordance-rendering invariant. -/
theorem stateAffordanceIffOk_run (es : List SendEvent) :
    ∀ st : AppState, stateAffordanceIffOk st = true →
      stateAffordanceIffOk (runSends st es) = true := by
  induction es with
  | nil => intro st h; exact h
  | cons e t ih =>
      intro st h
      simpa [runSends] using ih (stepSend st e) (stateAffordanceIffOk_step st e h)

/-- Running modal interactions composes over list append. -/
theorem runModal_append (pdfContent pdfId : String) (es fs : List ModalEvent) :
    ∀ st : ModalState, runModal pdfContent pdfId st (es ++ fs)
      = runModal pdfContent pdfId (runModal pdfContent pdfId st es) fs := by
  induction es with
  | nil => intro st; rfl
  | cons e t ih => intro st; simp [runModal, ih]

/-- A block of a mapped list has the mapped rank. -/
theorem blockRank_of_mem_map {α : Type} {f : α → Block} {c : Nat} {b : Block}
    {l : List α} (hb : b ∈ l.map f) (hf : ∀ a, blockRank (f a) = c) :
    blockRank b = c := by
  obtain ⟨a, _, rfl⟩ := List.mem_map.mp hb
  exact hf a

/-- A mapped list of constant rank is rank-sorted. -/
theorem blockRank_pairwise_map {α : Type} (f : α → Block) (c : Nat)
    (hf : ∀ a, blockRank (f a) = c) (l : List α) :
    (l.map f).Pairwise fun a b => blockRank a ≤ blockRank b := by
  induction l with
  | nil => exact List.Pairwise.nil
  | cons x t ih =>
      rw [List.map_cons]
      refine List.Pairwise.cons ?_ ih
      intro b hb
      rw [hf x, blockRank_of_mem_map hb hf]

/-- Image entries of the image part. -/
theorem imageUrlsOfBlocks_map_image (l : List String) :
    imageUrlsOfBlocks (l.map Block.image) = l := by
  induction l with
  | nil => rfl
  | cons h t ih => simpa [imageUrlsOfBlocks, List.filterMap_cons] using ih

/-- Image entries of the PDF part. -/
theorem imageUrlsOfBlocks_map_pdf (l : List String) :
    imageUrlsOfBlocks (l.map fun u => Block.pdfCard u (pdfFilename u)) = [] := by
  induction l with
  | nil => rfl
  | cons h t ih => simpa [imageUrlsOfBlocks, List.filterMap_cons] using ih

/-- Image entries of the video part. -/
theorem imageUrlsOfBlocks_map_video (l : List String) :
    imageUrlsOfBlocks (l.map Block.video) = [] := by
  induction l with
  | nil => rfl
  | cons h t ih => simpa [imageUrlsOfBlocks, List.filterMap_cons] using ih

/-- Image entries of the text part. -/
theorem imageUrlsOfBlocks_map_text (l : List String) :
    imageUrlsOfBlocks (l.map fun s => Block.textLine (renderTextLine s)) = [] := by
  induction l with
  | nil => rfl
  | cons h t ih => simpa [imageUrlsOfBlocks, List.filterMap_cons] using ih

/-- Text lines of the image part. -/
theorem textLinesOfBlocks_map_image (l : List String) :
    textLinesOfBlocks (l.map Block.image) = [] := by
  induction l with
  | nil => rfl
  | cons h t ih => simpa [textLinesOfBlocks, List.filterMap_cons] using ih

/-- Text lines of the PDF part. -/
theorem textLinesOfBlocks_map_pdf (l : List String) :
    textLinesOfBlocks (l.map fun u => Block.pdfCard u (pdfFilename u)) = [] := by
  induction l with
  | nil => rfl
  | cons h t ih => simpa [textLinesOfBlocks, List.filterMap_cons] using ih

/-- Text lines of the video part. -/
theorem textLinesOfBlocks_map_video (l : List String) :
    textLinesOfBlocks (l.map Block.video) = [] := by
  induction l with
  | nil => rfl
  | cons h t ih => simpa [textLinesOfBlocks, List.filterMap_cons] using ih

/-- Text lines of the text part. -/
theorem textLinesOfBlocks_map_text (l : List String) :
    textLinesOfBlocks (l.map fun s => Block.textLine (renderTextLine s))
      = l.map renderTextLine := by
  induction l with
  | nil => rfl
  | cons h t ih => simpa [textLinesOfBlocks, List.filterMap_cons] using ih

/-- Image entries distribute over block-list append. -/
theorem imageUrlsOfBlocks_append (xs ys : List Block) :
    imageUrlsOfBlocks (xs ++ ys) = imageUrlsOfBlocks xs ++ imageUrlsOfBlocks ys := by
  simp [imageUrlsOfBlocks]

/-- Text lines distribute over block-list append. -/
theorem textLinesOfBlocks_append (xs ys : List Block) :
    textLinesOfBlocks (xs ++ ys) = textLinesOfBlocks xs ++ textLinesOfBlocks ys := by
  simp [textLinesOfBlocks]

/- ===== Claim theorems ===== -/

/-- C1 (counterexample): the claim quantifies over every backend reply shape,
but a reply with `pdf_generated = true` and no `pdf_id` is copied verbatim into
the assistant turn, which then has `pdfGenerated = some true` with an absent
`pdfId`, violating the claimed invariant in a state reached by one send. -/
theorem pdf_invariant_cex :
    (handleSendMessage 0 "hi" initialState (SendResult.ok ⟨"ok", "s1", true, none⟩)).messages
        = [mkUserMessage 0 "hi", mkAiMessage 0 ⟨"ok", "s1", true, none⟩] ∧
    (mkAiMessage 0 ⟨"ok", "s1", true, none⟩).pdfGenerated = some true ∧
    (mkAiMessage 0 ⟨"ok", "s1", true, none⟩).pdfId = none ∧
    statePdfUiOk (handleSendMessage 0 "hi" initialState (SendResult.ok ⟨"ok", "s1", true, none⟩))
        = false := by
  decide

/-- C1 (amended): over every sequence of sends whose successful replies pair
`pdf_generated = true` with a non-empty `pdf_id`, every stored turn with
`pdfGenerated` true carries a non-empty `pdfId` and renders the download/preview
affordances exactly when both are present; the affordance equivalence holds
unconditionally over every sequence of sends and every backend reply shape. -/
theorem pdf_ui_invariant (es fs : List SendEvent) (h : goodEvents es = true) :
    statePdfUiOk (runSends initialState es) = true ∧
    stateAffordanceIffOk (runSends initialState fs) = true :=
  ⟨statePdfUiOk_run es initialState rfl h, stateAffordanceIffOk_run fs initialState rfl⟩

/-- C1 (witness): a concrete good run satisfies the invariant, and a concrete
run with a degenerate reply still renders affordances correctly. -/
theorem pdf_ui_invariant_witness :
    goodEvents [⟨0, "hi", SendResult.ok ⟨"ok", "s1", true, some "pdf1"⟩⟩] = true ∧
    statePdfUiOk (runSends initialState
      [⟨0, "hi", SendResult.ok ⟨"ok", "s1", true, some "pdf1"⟩⟩]) = true ∧
    stateAffordanceIffOk (runSends initialState
      [⟨1, "yo", SendResult.ok ⟨"resp", "s2", true, none⟩⟩]) = true :=
  ⟨by decide,
   (pdf_ui_invariant [⟨0, "hi", SendResult.ok ⟨"ok", "s1", true, some "pdf1"⟩⟩]
      [⟨1, "yo", SendResult.ok ⟨"resp", "s2", true, none⟩⟩] (by decide)).1,
   (pdf_ui_invariant [⟨0, "hi", SendResult.ok ⟨"ok", "s1", true, some "pdf1"⟩⟩]
      [⟨1, "yo", SendResult.ok ⟨"resp", "s2", true, none⟩⟩] (by decide)).2⟩

/-- C2: when the backend call rejects, the new state is the old one with
exactly the user turn and one synthetic assistant turn appended (all earlier
turns unchanged), the synthetic turn carries the fixed fallback apology text,
and the loading flag is cleared; on success the loading flag is cleared too. -/
theorem send_failure_fallback (now : Nat) (content : String) (st : AppState)
    (r : ChatResponse) :
    handleSendMessage now content st SendResult.err
        = { st with
              messages := st.messages ++ [mkUserMessage now content, mkErrorMessage now]
              inputValue := ""
              isLoading := false } ∧
    (mkErrorMessage now).content = fallbackApology ∧
    (mkErrorMessage now).sender = Sender.ai ∧
    (handleSendMessage now content st (SendResult.ok r)).isLoading = false := by
  refine ⟨?_, rfl, rfl, rfl⟩
  simp [handleSendMessage]

/-- C3: with no stored session id, the one request of the first send omits
`session_id`; after a successful reply carrying a (non-empty) session id, that
id is stored and included in every subsequent outgoing request, and it is still
the stored id after any further sequence of sends. -/
theorem session_handshake (st : AppState) (e : SendEvent) (r : ChatResponse)
    (es : List SendEvent) (h0 : st.sessionId = "") (hr : e.result = SendResult.ok r)
    (hs : r.session_id ≠ "") :
    (buildChatRequest e.content st).session_id = none ∧
    (stepSend st e).sessionId = r.session_id ∧
    allRequestsCarry r.session_id (requestsAlong (stepSend st e) es) = true ∧
    (runSends (stepSend st e) es).sessionId = r.session_id := by
  have h1 : (buildChatRequest e.content st).session_id = none := by
    simp [buildChatRequest, h0]
  have h2 : (stepSend st e).sessionId = r.session_id := by
    obtain ⟨now, content, res⟩ := e
    cases res with
    | ok q =>
        have hq : q = r := by simpa using hr
        subst hq
        simp only [stepSend, handleSendMessage]
        have : st.sessionId == "" := by simp [h0]
        split <;> simp_all
    | err => simp at hr
  have h3 := requests_carry_session r.session_id hs es (stepSend st e) h2
  exact ⟨h1, h2, h3.1, h3.2⟩

/-- C3 (witness): the scenario of the spec, run concretely. -/
theorem session_handshake_witness :
    initialState.sessionId = "" ∧
    (buildChatRequest "Plan a 3-day trip to Dominica" initialState).session_id = none ∧
    (stepSend initialState
        ⟨0, "Plan a 3-day trip to Dominica",
         SendResult.ok ⟨"Here is a plan", "sess-1", false, none⟩⟩).sessionId = "sess-1" ∧
    allRequestsCarry "sess-1"
      (requestsAlong
        (stepSend initialState
          ⟨0, "Plan a 3-day trip to Dominica",
           SendResult.ok ⟨"Here is a plan", "sess-1", false, none⟩⟩)
        [⟨1, "Another question", SendResult.err⟩,
         ⟨2, "One more", SendResult.ok ⟨"More", "sess-2", false, none⟩⟩]) = true := by
  have h := session_handshake initialState
    ⟨0, "Plan a 3-day trip to Dominica",
     SendResult.ok ⟨"Here is a plan", "sess-1", false, none⟩⟩
    ⟨"Here is a plan", "sess-1", false, none⟩
    [⟨1, "Another question", SendResult.err⟩,
     ⟨2, "One more", SendResult.ok ⟨"More", "sess-2", false, none⟩⟩]
    rfl rfl (by decide)
  exact ⟨rfl, h.1, h.2.1, h.2.2.1⟩

/-- C4: the rendered image entries are exactly the image-hosting URL matches of
the assistant text, in match order; in particular there are exactly as many
image entries as matches, whether zero, one, or many. -/
theorem renderer_image_entries (content : String) :
    imageUrlsOfBlocks (renderBlocks content) = extractImageUrls content ∧
    (imageUrlsOfBlocks (renderBlocks content)).length
        = (extractImageUrls content).length := by
  have h : imageUrlsOfBlocks (renderBlocks content) = extractImageUrls content := by
    rw [renderBlocks, imageUrlsOfBlocks_append, imageUrlsOfBlocks_append,
      imageUrlsOfBlocks_append, imageUrlsOfBlocks_map_image, imageUrlsOfBlocks_map_pdf,
      imageUrlsOfBlocks_map_video, imageUrlsOfBlocks_map_text]
    simp
  exact ⟨h, by rw [h]⟩

/-- C5: the renderer's block list is sorted by the fixed kind order (images,
then PDF cards, then videos, then text lines) for every assistant text,
independent of where the URLs occur in the source. -/
theorem render_blocks_fixed_order (content : String) :
    (renderBlocks content).Pairwise fun a b => blockRank a ≤ blockRank b := by
  have hle : ∀ b : Block, blockRank b ≤ 3 := by
    intro b; cases b <;> simp [blockRank]
  unfold renderBlocks
  refine List.pairwise_append.mpr
    ⟨?_, blockRank_pairwise_map (fun l => Block.textLine (renderTextLine l)) 3 (fun _ => rfl) _,
     ?_⟩
  · refine List.pairwise_append.mpr
      ⟨?_, blockRank_pairwise_map Block.video 2 (fun _ => rfl) _, ?_⟩
    · refine List.pairwise_append.mpr
        ⟨blockRank_pairwise_map Block.image 0 (fun _ => rfl) _,
         blockRank_pairwise_map (fun u => Block.pdfCard u (pdfFilename u)) 1 (fun _ => rfl) _,
         ?_⟩
      intro a ha b hb
      have h1 : blockRank a = 0 := blockRank_of_mem_map ha (fun _ => rfl)
      have h2 : blockRank b = 1 := blockRank_of_mem_map hb (fun _ => rfl)
      omega
    · intro a ha b hb
      have h2 : blockRank b = 2 := blockRank_of_mem_map hb (fun _ => rfl)
      rcases List.mem_append.mp ha with h | h
      · have h1 : blockRank a = 0 := blockRank_of_mem_map h (fun _ => rfl)
        omega
      · have h1 : blockRank a = 1 := blockRank_of_mem_map h (fun _ => rfl)
        omega
  · intro a ha b hb
    have h2 : blockRank b = 3 := blockRank_of_mem_map hb (fun _ => rfl)
    have h1 := hle a
    omega

/-- C6 (counterexample): the line `Channel: Island Vibes` is none of the
already-extracted URL forms, no markdown image and no bold-heading shape, so the
claim says it is rendered; the code omits it (the `Channel:` tag check). -/
theorem skipped_tag_line_cex :
    lineIsClaimSkippable "Channel: Island Vibes" "Channel: Island Vibes" = false ∧
    splitLines "Channel: Island Vibes" = ["Channel: Island Vibes"] ∧
    textLinesOfBlocks (renderBlocks "Channel: Island Vibes") = [] := by
  decide

/-- C6 (amended): a line is omitted from the text phase exactly when it
contains an image-hosting URL, a PDF-download URL, a YouTube watch or embed URL,
or a ytimg thumbnail URL, or matches the markdown-image or bold-numbered-heading
pattern, or contains one of the tags `Channel:`, `Description:`, `Watch:`,
`Embed:`, `Thumbnail:`, or after trimming starts with `**` while containing
`**`; every other line is rendered, in order. -/
theorem rendered_text_lines_exactly_unskipped (content : String) :
    textLinesOfBlocks (renderBlocks content)
      = ((splitLines content).filter fun l => !shouldSkipLine l).map renderTextLine := by
  rw [renderBlocks, textLinesOfBlocks_append, textLinesOfBlocks_append,
    textLinesOfBlocks_append, textLinesOfBlocks_map_image, textLinesOfBlocks_map_pdf,
    textLinesOfBlocks_map_video, textLinesOfBlocks_map_text]
  simp

/-- C7: pressing Save fires the owner callback exactly once, carrying the PDF
identifier and exactly the current edited text; pressing Cancel fires no
callback and restores the text to the original content, and any edit sequence
followed by Cancel leaves the textual state equal to the original. -/
theorem modal_save_cancel (pdfContent pdfId : String) (st : ModalState)
    (edits : List String) :
    (modalStep pdfContent pdfId st ModalEvent.saveEdits).2
        = [{ pdfId := pdfId, editedContent := st.editedContent }] ∧
    (modalStep pdfContent pdfId st ModalEvent.cancelEdit).2 = [] ∧
    (modalStep pdfContent pdfId st ModalEvent.cancelEdit).1.editedContent = pdfContent ∧
    (runModal pdfContent pdfId (initModal pdfContent)
        (ModalEvent.startEdit :: edits.map ModalEvent.contentChange
          ++ [ModalEvent.cancelEdit])).editedContent = pdfContent := by
  refine ⟨rfl, rfl, rfl, ?_⟩
  rw [show ModalEvent.startEdit :: edits.map ModalEvent.contentChange
        ++ [ModalEvent.cancelEdit]
      = (ModalEvent.startEdit :: edits.map ModalEvent.contentChange)
        ++ [ModalEvent.cancelEdit] from rfl,
    runModal_append]
  rfl

/-- C8 (counterexample): with original content `A`, editing to `B`, saving
(callback carries `B`), re-entering edit mode and editing to `B` again leaves
`hasChanges` true, so Save is enabled even though the edited text equals the
last-saved text `B`, contradicting the claim. -/
theorem save_enabled_not_last_saved_cex :
    runModalTrace "A" "pdf-1" (initModal "A")
        [ModalEvent.startEdit, ModalEvent.contentChange "B", ModalEvent.saveEdits,
         ModalEvent.startEdit, ModalEvent.contentChange "B"]
      = ({ isEditing := true, editedContent := "B", hasChanges := true },
         [{ pdfId := "pdf-1", editedContent := "B" }]) := by
  decide

/-- C8 (amended): Save is enabled exactly when the most recent content change
since the modal opened or since the last Save or Cancel produced a text
different from the original content prop: a change to `t` sets the enabling
flag to `t` differing from the original content, Save and Cancel clear it, the
modal opens with it cleared, and entering edit mode leaves it unchanged. The
comparison point is the original content, not the last-saved text. -/
theorem save_enabled_tracks_original (pdfContent pdfId : String) (st : ModalState)
    (t : String) :
    (initModal pdfContent).hasChanges = false ∧
    (modalStep pdfContent pdfId st (ModalEvent.contentChange t)).1.hasChanges
        = (t != pdfContent) ∧
    (modalStep pdfContent pdfId st ModalEvent.saveEdits).1.hasChanges = false ∧
    (modalStep pdfContent pdfId st ModalEvent.cancelEdit).1.hasChanges = false ∧
    (modalStep pdfContent pdfId st ModalEvent.startEdit).1.hasChanges = st.hasChanges :=
  ⟨rfl, rfl, rfl, rfl, rfl⟩

/-- C9: an input change to a text of exactly the maximum length (1000) is
accepted, becoming the value with its character count; a text one character
longer is rejected atomically, leaving value and counter unchanged, and neither
event dispatches a submission. -/
theorem input_char_limit (disabled : Bool) (st : InputState) (v w : String)
    (hv : v.length = maxChars) (hw : w.length = maxChars + 1) :
    inputStep disabled st (InputEvent.change v)
        = ({ value := v, charCount := v.length }, []) ∧
    inputStep disabled st (InputEvent.change w) = (st, []) := by
  constructor
  · simp [inputStep, handleInputChange, hv]
  · simp [inputStep, handleInputChange, hw]

/-- C9 (witness): concrete strings of length 1000 and 1001. -/
theorem input_char_limit_witness :
    (String.mk (List.replicate 1000 'a')).length = maxChars ∧
    (String.mk (List.replicate 1001 'a')).length = maxChars + 1 ∧
    inputStep false { value := "", charCount := 0 }
        (InputEvent.change (String.mk (List.replicate 1000 'a')))
      = ({ value := String.mk (List.replicate 1000 'a')
           charCount := (String.mk (List.replicate 1000 'a')).length }, []) ∧
    inputStep false { value := "", charCount := 0 }
        (InputEvent.change (String.mk (List.replicate 1001 'a')))
      = ({ value := "", charCount := 0 }, []) := by
  have h1 : (String.mk (List.replicate 1000 'a')).length = maxChars := by
    show (List.replicate 1000 'a').length = maxChars
    rw [List.length_replicate]
    rfl
  have h2 : (String.mk (List.replicate 1001 'a')).length = maxChars + 1 := by
    show (List.replicate 1001 'a').length = maxChars + 1
    rw [List.length_replicate]
    rfl
  have h := input_char_limit false { value := "", charCount := 0 }
    (String.mk (List.replicate 1000 'a')) (String.mk (List.replicate 1001 'a')) h1 h2
  exact ⟨h1, h2, h.1, h.2⟩

/-- C10: a key press dispatches a send exactly when the key is Enter without
Shift, the trimmed value is non-empty and the component is not disabled, and
the dispatched content is the trimmed value; the Send button click dispatches
the trimmed value exactly when the button is not disabled (non-blank trimmed
value and component enabled); a whitespace-only value trims to empty and so
never dispatches. -/
theorem dispatch_requires_trimmed_nonempty (disabled : Bool) (st : InputState)
    (key : String) (shift : Bool) :
    (inputStep disabled st (InputEvent.keyPress key shift)).2
        = (if key == "Enter" && !shift && jsTrim st.value != "" && !disabled
           then [jsTrim st.value] else []) ∧
    (inputStep disabled st InputEvent.clickSend).2
        = (if sendButtonDisabled disabled st then [] else [jsTrim st.value]) := by
  constructor
  · simp only [inputStep, handleKeyPress]
    cases hk : key == "Enter" <;> cases shift <;>
      cases ht : jsTrim st.value != "" <;> cases disabled <;> simp_all
  · simp only [inputStep, handleSend, sendButtonDisabled, bne]
    rcases Bool.eq_false_or_eq_true (jsTrim st.value == "") with ht | ht <;>
      cases disabled <;> simp [ht]

end TropiTrek
